import Mathlib

/-!
Verification of the two carrier adapter modules of this repository:

* the Australia Post rate adapter
  (purplship/carriers/aups/shipping/shipping_price.py), and
* the Purolator shipping-documents request builder
  (extensions/purolator/purplship/providers/purolator/shipment/documents.py).

Each Python function is shallowly embedded as an executable Lean
definition.  Optional Python values become Option, exceptions become
Except, Python dict payloads become structures, floating/decimal amounts
become exact decimal numbers (a mantissa/exponent pair on the request
side, rationals on the response side).  Collaborators that live in this
repository but outside the two source files (normalized payload models,
the PrintType and PackagingType lookup tables, the error-response
collaborator, the JSON helpers) are modelled from the specification, as
flagged in their doc comments.
-/

namespace Karrio

/-- Exact decimal number: mantissa times ten to the minus exponent.  This
models the numeric values carried by the normalized payload and rendered
into the JSON wire format (Python floats serialized by their shortest
decimal representation). -/
structure Dec where
  mantissa : Int
  exponent : Nat
  deriving Repr, DecidableEq

/-- Normalized party (shipper or recipient) of the unified API payload.
Modelled from the spec: the carrier-agnostic payload models live in
purplship.core.models, outside src/; the spec lists addresses, names,
contact fields, all optional. -/
structure Party where
  person_name : Option String := none
  company_name : Option String := none
  address_line1 : Option String := none
  address_line2 : Option String := none
  suburb : Option String := none
  state_code : Option String := none
  postal_code : Option String := none
  country_code : Option String := none
  phone_number : Option String := none
  email : Option String := none
  deriving Repr, DecidableEq

/-- Normalized parcel of the unified API payload.  Modelled from the
spec: dimensions, weight and reference strings of the carrier-agnostic
payload (purplship.core.models, outside src/). -/
structure Parcel where
  reference : Option String := none
  id : Option String := none
  description : Option String := none
  packaging_type : Option String := none
  length : Option Dec := none
  width : Option Dec := none
  height : Option Dec := none
  weight : Option Dec := none
  deriving Repr, DecidableEq

/-- Normalized rate request payload (purplship.core.models.RateRequest,
modelled from the spec: shipper, recipient and parcel). -/
structure RateRequest where
  shipper : Party
  recipient : Party
  parcel : Parcel
  deriving Repr, DecidableEq

/-- Carrier settings consumed by the adapters.  Modelled from the spec:
exposes at minimum language, user_token, carrier, carrier_name. -/
structure Settings where
  carrier : String
  carrier_name : String
  language : String := "en"
  user_token : String := ""
  deriving Repr, DecidableEq

/-- Country enumeration (purplship.core.units.Country); only the member
used by the source is modelled. -/
inductive Country where
  | AU
  deriving Repr, DecidableEq

/-- Name of a country enumeration member. -/
def Country.name : Country → String
  | .AU => "AU"

/-- Currency enumeration (purplship.core.units.Currency); only the
member used by the source is modelled. -/
inductive Currency where
  | AUD
  deriving Repr, DecidableEq

/-- Name of a currency enumeration member. -/
def Currency.name : Currency → String
  | .AUD => "AUD"

/-- Error raised when the origin country is not serviced by the carrier
(purplship.core.errors.OriginNotServicedError); it carries the offending
country code and the carrier name, the two constructor arguments at the
raise site. -/
structure OriginNotServicedError where
  country_code : String
  carrier : String
  deriving Repr, DecidableEq

/-- Pairing of a constructed carrier-native object with the function
that renders it to the wire format (purplship.core.utils.Serializable,
modelled from the spec glossary). -/
structure Serializable (α : Type) where
  value : α
  serializer : α → String

/-- Opening-brace character of the JSON object syntax. -/
def lbraceChar : Char := Char.ofNat 123

/-- Closing-brace character of the JSON object syntax. -/
def rbraceChar : Char := Char.ofNat 125

/-- Double-quote character of the JSON string syntax. -/
def quoteChar : Char := Char.ofNat 34

/-- Backslash character of the JSON escape syntax. -/
def escChar : Char := Char.ofNat 92

mutual

/-- Plain JSON value: the shape of the mapping produced by the to_dict
helper and consumed by the JSON serializer of the rate adapter. -/
inductive Json where
  | null
  | bool (b : Bool)
  | num (d : Dec)
  | str (s : String)
  | arr (xs : JsonList)
  | obj (fs : JsonFields)

/-- Sequence of JSON array elements. -/
inductive JsonList where
  | nil
  | cons (hd : Json) (tl : JsonList)

/-- Sequence of JSON object members, in insertion order as Python dicts
preserve it. -/
inductive JsonFields where
  | nil
  | cons (key : String) (val : Json) (tl : JsonFields)

end

/-- Decimal digit character for a digit value below ten. -/
def digitChar (n : Nat) : Char :=
  Char.ofNat (48 + n % 10)

/-- Hexadecimal digit character for a value below sixteen, lower case as
emitted by JSON escape sequences. -/
def hexDigitChar (n : Nat) : Char :=
  if n < 10 then Char.ofNat (48 + n) else Char.ofNat (87 + n % 16)

/-- Big-endian decimal digit characters of a natural number; empty for
zero. -/
def natChars (n : Nat) : List Char :=
  ((Nat.digits 10 n).map digitChar).reverse

/-- Big-endian decimal representation of a natural number, with a
single zero digit for zero. -/
def natRepr (n : Nat) : List Char :=
  if n = 0 then [Char.ofNat 48] else natChars n

/-- Left-pads a digit string with zero digits up to the given length. -/
def padZeros (len : Nat) (ds : List Char) : List Char :=
  List.replicate (len - ds.length) (Char.ofNat 48) ++ ds

/-- Unsigned decimal rendering of a scaled natural number: integer
digits and, for a positive exponent, a point followed by exactly
exponent fractional digits. -/
def decCoreChars (a e : Nat) : List Char :=
  if e = 0 then natRepr a
  else natRepr (a / 10 ^ e) ++ Char.ofNat 46 :: padZeros e (natChars (a % 10 ^ e))

/-- Shortest-decimal rendering of an exact decimal number: optional
sign followed by the unsigned rendering of the absolute mantissa. -/
def decChars (d : Dec) : List Char :=
  (if d.mantissa < 0 then [Char.ofNat 45] else []) ++
    decCoreChars d.mantissa.natAbs d.exponent

/-- JSON escape sequence of a single character: quote, backslash and
the common control characters get two-character escapes, all other
control characters a hexadecimal escape, and everything else stands for
itself. -/
def escapeChar (c : Char) : List Char :=
  if c = quoteChar then [escChar, quoteChar]
  else if c = escChar then [escChar, escChar]
  else if c = Char.ofNat 10 then [escChar, Char.ofNat 110]
  else if c = Char.ofNat 9 then [escChar, Char.ofNat 116]
  else if c = Char.ofNat 13 then [escChar, Char.ofNat 114]
  else if c.toNat < 32 then
    [escChar, Char.ofNat 117, Char.ofNat 48, Char.ofNat 48,
     hexDigitChar (c.toNat / 16), hexDigitChar (c.toNat % 16)]
  else [c]

/-- JSON escaping of a character sequence. -/
def escapeChars : List Char → List Char
  | [] => []
  | c :: cs => escapeChar c ++ escapeChars cs

/-- JSON string literal of a string, quotes included. -/
def strChars (s : String) : List Char :=
  quoteChar :: escapeChars s.data ++ [quoteChar]

mutual

/-- Compact JSON rendering of a value, as a character sequence. -/
def printJson : Json → List Char
  | .null => [Char.ofNat 110, Char.ofNat 117, Char.ofNat 108, Char.ofNat 108]
  | .bool true => [Char.ofNat 116, Char.ofNat 114, Char.ofNat 117, Char.ofNat 101]
  | .bool false =>
      [Char.ofNat 102, Char.ofNat 97, Char.ofNat 108, Char.ofNat 115,
       Char.ofNat 101]
  | .num d => decChars d
  | .str s => strChars s
  | .arr xs => Char.ofNat 91 :: printArr xs ++ [Char.ofNat 93]
  | .obj fs => lbraceChar :: printObj fs ++ [rbraceChar]

/-- Comma-separated rendering of JSON array elements. -/
def printArr : JsonList → List Char
  | .nil => []
  | .cons v .nil => printJson v
  | .cons v (.cons w tl) =>
      printJson v ++ Char.ofNat 44 :: printArr (.cons w tl)

/-- Comma-separated rendering of JSON object members. -/
def printObj : JsonFields → List Char
  | .nil => []
  | .cons k v .nil => strChars k ++ Char.ofNat 58 :: printJson v
  | .cons k v (.cons k2 w tl) =>
      strChars k ++ Char.ofNat 58 :: printJson v ++
        Char.ofNat 44 :: printObj (.cons k2 w tl)

end

/-- JSON whitespace predicate. -/
def isWs (c : Char) : Bool :=
  c = Char.ofNat 32 ∨ c = Char.ofNat 10 ∨ c = Char.ofNat 9 ∨ c = Char.ofNat 13

/-- Drops leading JSON whitespace. -/
def skipWs : List Char → List Char
  | [] => []
  | c :: cs => if isWs c then skipWs cs else c :: cs

/-- Numeric value of a hexadecimal digit character, in either case. -/
def hexVal (c : Char) : Option Nat :=
  if 48 ≤ c.toNat ∧ c.toNat ≤ 57 then some (c.toNat - 48)
  else if 97 ≤ c.toNat ∧ c.toNat ≤ 102 then some (c.toNat - 87)
  else if 65 ≤ c.toNat ∧ c.toNat ≤ 70 then some (c.toNat - 55)
  else none

/-- Body of a JSON string literal after its opening quote: decodes
escapes and stops at the closing quote, returning the decoded characters
and the remaining input. -/
def parseStringBody : List Char → Option (List Char × List Char)
  | [] => none
  | c :: cs =>
    if c = quoteChar then some ([], cs)
    else if c = escChar then
      match cs with
      | [] => none
      | e :: cs2 =>
        if e = quoteChar then
          (fun r => (quoteChar :: r.1, r.2)) <$> parseStringBody cs2
        else if e = escChar then
          (fun r => (escChar :: r.1, r.2)) <$> parseStringBody cs2
        else if e = Char.ofNat 47 then
          (fun r => (Char.ofNat 47 :: r.1, r.2)) <$> parseStringBody cs2
        else if e = Char.ofNat 110 then
          (fun r => (Char.ofNat 10 :: r.1, r.2)) <$> parseStringBody cs2
        else if e = Char.ofNat 116 then
          (fun r => (Char.ofNat 9 :: r.1, r.2)) <$> parseStringBody cs2
        else if e = Char.ofNat 114 then
          (fun r => (Char.ofNat 13 :: r.1, r.2)) <$> parseStringBody cs2
        else if e = Char.ofNat 98 then
          (fun r => (Char.ofNat 8 :: r.1, r.2)) <$> parseStringBody cs2
        else if e = Char.ofNat 102 then
          (fun r => (Char.ofNat 12 :: r.1, r.2)) <$> parseStringBody cs2
        else if e = Char.ofNat 117 then
          match cs2 with
          | h1 :: h2 :: h3 :: h4 :: cs3 =>
            match hexVal h1, hexVal h2, hexVal h3, hexVal h4 with
            | some a, some b, some c3, some d4 =>
              (fun r => (Char.ofNat (((a * 16 + b) * 16 + c3) * 16 + d4) :: r.1, r.2))
                <$> parseStringBody cs3
            | _, _, _, _ => none
          | _ => none
        else none
    else (fun r => (c :: r.1, r.2)) <$> parseStringBody cs
  termination_by cs => cs.length
  decreasing_by all_goals simp +arith [List.length]

/-- Decimal value of a digit character. -/
def digitVal (c : Char) : Nat :=
  c.toNat - 48

/-- Numeric value of a big-endian digit string. -/
def digitsToNat (ds : List Char) : Nat :=
  ds.foldl (fun acc c => acc * 10 + digitVal c) 0

/-- Digits of a JSON number literal after the optional sign: integer
digits, optional point and fractional digits, yielding the exact
decimal value with the sign applied. -/
def parseNumberCore (neg : Bool) (cs : List Char) : Option (Dec × List Char) :=
  if (cs.takeWhile Char.isDigit).isEmpty then none
  else
    match cs.dropWhile Char.isDigit with
    | c :: cs3 =>
      if c = Char.ofNat 46 then
        if (cs3.takeWhile Char.isDigit).isEmpty then none
        else
          some ({ mantissa :=
                    cond neg
                      (-(digitsToNat (cs.takeWhile Char.isDigit ++
                          cs3.takeWhile Char.isDigit) : Int))
                      (digitsToNat (cs.takeWhile Char.isDigit ++
                          cs3.takeWhile Char.isDigit) : Int),
                  exponent := (cs3.takeWhile Char.isDigit).length },
                cs3.dropWhile Char.isDigit)
      else
        some ({ mantissa := cond neg (-(digitsToNat (cs.takeWhile Char.isDigit) : Int))
                  (digitsToNat (cs.takeWhile Char.isDigit) : Int),
                exponent := 0 }, c :: cs3)
    | [] =>
      some ({ mantissa := cond neg (-(digitsToNat (cs.takeWhile Char.isDigit) : Int))
                (digitsToNat (cs.takeWhile Char.isDigit) : Int),
              exponent := 0 }, [])

/-- JSON number literal: optional minus sign, integer digits, optional
point and fractional digits (the exponent form never emitted by the
printer is not modelled).  Returns the exact decimal value and the
remaining input. -/
def parseNumber (cs : List Char) : Option (Dec × List Char) :=
  match cs with
  | c :: rest =>
    if c = Char.ofNat 45 then parseNumberCore true rest
    else parseNumberCore false (c :: rest)
  | [] => none

/-- Input that cannot extend a preceding number literal: empty, or
starting with a character that is neither a digit nor a decimal
point. -/
def numBoundary : List Char → Prop
  | [] => True
  | c :: _ => c.isDigit = false ∧ c ≠ Char.ofNat 46

mutual

/-- Fuel-bounded JSON value parser over the remaining input; returns
the parsed value and the unconsumed input. -/
def parseValue : Nat → List Char → Option (Json × List Char)
  | 0, _ => none
  | fuel + 1, cs0 =>
    match skipWs cs0 with
    | [] => none
    | c :: rest =>
      if c = quoteChar then
        (fun r => (Json.str (String.mk r.1), r.2)) <$> parseStringBody rest
      else if c = Char.ofNat 91 then
        let cs1 := skipWs rest
        if cs1.head? = some (Char.ofNat 93) then some (.arr .nil, cs1.tail)
        else (fun r => (Json.arr r.1, r.2)) <$> parseItems fuel cs1
      else if c = lbraceChar then
        let cs1 := skipWs rest
        if cs1.head? = some rbraceChar then some (.obj .nil, cs1.tail)
        else (fun r => (Json.obj r.1, r.2)) <$> parseMembers fuel cs1
      else if c = Char.ofNat 116 then
        match rest with
        | r1 :: u1 :: e1 :: cs2 =>
          if r1 = Char.ofNat 114 ∧ u1 = Char.ofNat 117 ∧ e1 = Char.ofNat 101 then
            some (.bool true, cs2)
          else none
        | _ => none
      else if c = Char.ofNat 102 then
        match rest with
        | a1 :: l1 :: s1 :: e1 :: cs2 =>
          if a1 = Char.ofNat 97 ∧ l1 = Char.ofNat 108 ∧
              s1 = Char.ofNat 115 ∧ e1 = Char.ofNat 101 then
            some (.bool false, cs2)
          else none
        | _ => none
      else if c = Char.ofNat 110 then
        match rest with
        | u1 :: l1 :: l2 :: cs2 =>
          if u1 = Char.ofNat 117 ∧ l1 = Char.ofNat 108 ∧ l2 = Char.ofNat 108 then
            some (.null, cs2)
          else none
        | _ => none
      else
        (fun r => (Json.num r.1, r.2)) <$> parseNumber (c :: rest)

/-- Fuel-bounded parser of one or more comma-separated array elements,
consuming the closing bracket. -/
def parseItems : Nat → List Char → Option (JsonList × List Char)
  | 0, _ => none
  | fuel + 1, cs =>
    match parseValue fuel cs with
    | none => none
    | some (v, cs1) =>
      match skipWs cs1 with
      | c :: cs2 =>
        if c = Char.ofNat 44 then
          (fun r => (JsonList.cons v r.1, r.2)) <$> parseItems fuel cs2
        else if c = Char.ofNat 93 then some (JsonList.cons v .nil, cs2)
        else none
      | [] => none

/-- Fuel-bounded parser of one or more comma-separated object members,
consuming the closing brace. -/
def parseMembers : Nat → List Char → Option (JsonFields × List Char)
  | 0, _ => none
  | fuel + 1, cs =>
    match skipWs cs with
    | c :: rest =>
      if c = quoteChar then
        match parseStringBody rest with
        | none => none
        | some (k, cs1) =>
          match skipWs cs1 with
          | c1 :: cs2 =>
            if c1 = Char.ofNat 58 then
              match parseValue fuel cs2 with
              | none => none
              | some (v, cs3) =>
                match skipWs cs3 with
                | c2 :: cs4 =>
                  if c2 = Char.ofNat 44 then
                    (fun r => (JsonFields.cons (String.mk k) v r.1, r.2)) <$>
                      parseMembers fuel cs4
                  else if c2 = rbraceChar then
                    some (JsonFields.cons (String.mk k) v .nil, cs4)
                  else none
                | [] => none
            else none
          | [] => none
      else none
    | [] => none

end

/-- JSON serialization of a value (the model of Python json.dumps with
default separators reduced to their compact core). -/
def jsonify (j : Json) : String :=
  String.mk (printJson j)

/-- JSON parsing of a string (the model of Python json.loads on the
grammar fragment the serializer emits): the whole input must be one
value up to trailing whitespace. -/
def loads (s : String) : Option Json :=
  match parseValue (s.data.length + 1) s.data with
  | some (j, rest) => if (skipWs rest).isEmpty then some j else none
  | none => none

mutual

/-- Fuel sufficient for parseValue to parse the rendering of a value. -/
def fuelJson : Json → Nat
  | .arr xs => fuelItems xs + 1
  | .obj fs => fuelMembers fs + 1
  | _ => 1

/-- Fuel sufficient for parseItems to parse the rendering of a
non-empty element list. -/
def fuelItems : JsonList → Nat
  | .nil => 0
  | .cons v tl => fuelJson v + fuelItems tl + 1

/-- Fuel sufficient for parseMembers to parse the rendering of a
non-empty member list. -/
def fuelMembers : JsonFields → Nat
  | .nil => 0
  | .cons _ v tl => fuelJson v + fuelMembers tl + 1

end

namespace Aups

/-- Carrier-native sender block of the Australia Post rate request
(pyaups.shipping_price_request.From; external SDK, fields as used by the
source). -/
structure From where
  name : Option String
  type : Option String
  lines : List (Option String)
  suburb : Option String
  state : Option String
  postcode : Option String
  country : Option String
  phone : Option String
  email : Option String
  deriving Repr, DecidableEq

/-- Carrier-native recipient block of the Australia Post rate request
(pyaups.shipping_price_request.To; external SDK, fields as used by the
source). -/
structure To where
  name : Option String
  business_name : Option String
  type : Option String
  lines : List (Option String)
  suburb : Option String
  state : Option String
  postcode : Option String
  country : Option String
  phone : Option String
  email : Option String
  delivery_instructions : Option String
  deriving Repr, DecidableEq

/-- Carrier-native item of the Australia Post rate request
(pyaups.shipping_price_request.Item; external SDK, fields as used by the
source). -/
structure Item where
  item_reference : Option String
  product_id : Option String
  item_description : Option String
  length : Option Dec
  width : Option Dec
  height : Option Dec
  cubic_volume : Option Dec
  weight : Option Dec
  contains_dangerous_goods : Option Bool
  transportable_by_air : Option Bool
  dangerous_goods_declaration : Option String
  authority_to_leave : Bool
  reason_for_return : Option String
  allow_partial_delivery : Bool
  packaging_type : Option String
  atl_number : Option String
  features : Option String
  tracking_details : Option String
  commercial_value : Option Bool
  export_declaration_number : Option String
  import_reference_number : Option String
  classification_type : Option String
  description_of_other : Option String
  international_parcel_sender_name : Option String
  non_delivery_action : Option String
  certificate_number : Option String
  licence_number : Option String
  invoice_number : Option String
  comments : Option String
  tariff_concession : Option String
  free_trade_applicable : Option Bool
  deriving Repr, DecidableEq

/-- Carrier-native shipment of the Australia Post rate request
(pyaups.shipping_price_request.Shipment; external SDK, fields as used by
the source). -/
structure Shipment where
  shipment_reference : Option String
  sender_references : Option (List String)
  goods_descriptions : Option (List String)
  despatch_date : Option String
  consolidate : Option Bool
  email_tracking_enabled : Bool
  from_ : From
  to_ : To
  dangerous_goods : Option Bool
  movement_type : Option String
  features : Option String
  authorisation_number : Option String
  items : List Item
  deriving Repr, DecidableEq

/-- Carrier-native Australia Post rate request
(pyaups.shipping_price_request.ShippingPriceRequest). -/
structure ShippingPriceRequest where
  shipments : List Shipment
  deriving Repr, DecidableEq

/-- Summary block of a response shipment
(pyaups.shipping_price_response.ShipmentSummary; external SDK, fields as
read by the source, every one optional and defaulting to absent). -/
structure ShipmentSummary where
  total_cost : Option ℚ := none
  total_cost_ex_gst : Option ℚ := none
  total_gst : Option ℚ := none
  discount : Option ℚ := none
  fuel_surcharge : Option ℚ := none
  security_surcharge : Option ℚ := none
  transit_cover : Option ℚ := none
  freight_charge : Option ℚ := none
  deriving Repr, DecidableEq

/-- Shipment entry of the Australia Post rate response
(pyaups.shipping_price_response.Shipment). -/
structure ResponseShipment where
  shipment_summary : Option ShipmentSummary := none
  deriving Repr, DecidableEq

/-- Raw carrier error entry of the response payload.  Modelled from the
spec: carrier-side error payloads are plain data collected from the
response's errors field. -/
structure AupsError where
  code : Option String := none
  message : Option String := none
  deriving Repr, DecidableEq

/-- Raw Australia Post rate response mapping: the typed shipments list
reconstructed by ShippingPriceResponse and the optional raw errors field
read by response.get with an empty-list default. -/
structure RawResponse where
  shipments : List ResponseShipment := []
  errors : Option (List AupsError) := none
  deriving Repr, DecidableEq

/-- Normalized charge breakdown entry
(purplship.core.models.ChargeDetails, modelled from the spec: name,
amount, currency). -/
structure ChargeDetails where
  name : String
  amount : Option ℚ
  currency : Option String
  deriving Repr, DecidableEq

/-- Normalized error message (purplship.core.models.Message, modelled
from the spec: a normalized error with carrier identification). -/
structure Message where
  carrier : String
  carrier_name : String
  code : Option String := none
  message : Option String := none
  deriving Repr, DecidableEq

/-- Normalized rate quote (purplship.core.models.RateDetails, modelled
from the spec: base charge, taxes, total, currency, discount, itemized
surcharges). -/
structure RateDetails where
  carrier : String
  carrier_name : String
  base_charge : Option ℚ
  duties_and_taxes : Option ℚ
  total_charge : Option ℚ
  currency : Option String
  discount : Option ℚ
  extra_charges : List ChargeDetails
  deriving Repr, DecidableEq

/-- Decimal conversion helper (purplship.core.utils.decimal).  Modelled
from the spec: amounts are converted to exact decimal values with no
floating-point rounding; on the exact rationals of this model the
conversion is the identity, lifted over an absent value. -/
def decimal (value : Option ℚ) : Option ℚ :=
  value

/-- Error-response collaborator
(purplship.carriers.aups.error.parse_error_response, outside src/).
Modelled from the spec: carrier-side error payloads are collected into a
normalized Message list carrying the carrier identification from the
settings, one Message per raw error entry. -/
def parse_error_response (errors : List AupsError) (settings : Settings) :
    List Message :=
  errors.map fun e =>
    { carrier := settings.carrier
      carrier_name := settings.carrier_name
      code := e.code
      message := e.message }

/-- Embedding of _extract_quote: reads the shipment summary (an empty
summary when absent), keeps the non-absent entries of the four named
surcharges as AUD charge details, and fills the charge totals through
the decimal conversion. -/
def extract_quote (rate : ResponseShipment) (settings : Settings) :
    RateDetails :=
  let summary := rate.shipment_summary.getD {}
  let surcharges : List (String × Option ℚ) :=
    [("Fuel", summary.fuel_surcharge),
     ("Security", summary.security_surcharge),
     ("Transit Cover", summary.transit_cover),
     ("Freight Charge", summary.freight_charge)]
  let extra_charges : List ChargeDetails :=
    (surcharges.filter fun p => p.2.isSome).map fun p =>
      { name := p.1, amount := decimal p.2, currency := some Currency.AUD.name }
  { carrier := settings.carrier
    carrier_name := settings.carrier_name
    base_charge := decimal summary.total_cost_ex_gst
    duties_and_taxes := decimal summary.total_gst
    total_charge := decimal summary.total_cost
    currency := some Currency.AUD.name
    discount := decimal summary.discount
    extra_charges := extra_charges }

/-- Embedding of parse_shipping_price_response: one extracted quote per
entry of the response's shipments list, and the normalized messages
parsed from the errors field (defaulting to an empty list),
independently of the quotes. -/
def parse_shipping_price_response (response : RawResponse)
    (settings : Settings) : List RateDetails × List Message :=
  (response.shipments.map fun rate => extract_quote rate settings,
   parse_error_response (response.errors.getD []) settings)

/-- Packaging-type lookup of the request builder: first enumeration
entry whose name equals the payload's packaging type, its native value;
absent match or absent payload value give an absent result.  The
enumeration entries (purplship.carriers.aups.units.PackagingType,
outside src/) are modelled from the spec as an arbitrary static
name/value table, passed explicitly. -/
def packaging_lookup (entries : List (String × String))
    (packaging_type : Option String) : Option String :=
  match packaging_type with
  | none => none
  | some name => (entries.find? fun t => t.1 = name).map fun t => t.2

/-- Python truthiness of an optional string: present and non-empty. -/
def strTruthy : Option String → Bool
  | none => false
  | some s => s ≠ ""

/-- Conversion of JSON element lists into the JSON array spine. -/
def jitems : List Json → JsonList
  | [] => .nil
  | v :: tl => .cons v (jitems tl)

/-- Conversion of key/value lists into the JSON member spine. -/
def jfields : List (String × Json) → JsonFields
  | [] => .nil
  | (k, v) :: tl => .cons k v (jfields tl)

/-- Mapping of an optional string onto JSON. -/
def jOptStr : Option String → Json
  | none => .null
  | some s => .str s

/-- Mapping of an optional exact decimal onto JSON. -/
def jOptDec : Option Dec → Json
  | none => .null
  | some d => .num d

/-- Mapping of an optional boolean onto JSON. -/
def jOptBool : Option Bool → Json
  | none => .null
  | some b => .bool b

/-- Mapping of an optional string list onto JSON. -/
def jOptStrList : Option (List String) → Json
  | none => .null
  | some xs => .arr (jitems (xs.map Json.str))

/-- Plain-mapping form of the carrier-native sender block (the model of
purplship.core.utils.to_dict on From, modelled from the spec: the
native request object converted field by field to a plain mapping). -/
def From.to_dict (f : From) : Json :=
  .obj (jfields
    [("name", jOptStr f.name),
     ("type", jOptStr f.type),
     ("lines", .arr (jitems (f.lines.map jOptStr))),
     ("suburb", jOptStr f.suburb),
     ("state", jOptStr f.state),
     ("postcode", jOptStr f.postcode),
     ("country", jOptStr f.country),
     ("phone", jOptStr f.phone),
     ("email", jOptStr f.email)])

/-- Plain-mapping form of the carrier-native recipient block. -/
def To.to_dict (t : To) : Json :=
  .obj (jfields
    [("name", jOptStr t.name),
     ("business_name", jOptStr t.business_name),
     ("type", jOptStr t.type),
     ("lines", .arr (jitems (t.lines.map jOptStr))),
     ("suburb", jOptStr t.suburb),
     ("state", jOptStr t.state),
     ("postcode", jOptStr t.postcode),
     ("country", jOptStr t.country),
     ("phone", jOptStr t.phone),
     ("email", jOptStr t.email),
     ("delivery_instructions", jOptStr t.delivery_instructions)])

/-- Plain-mapping form of a carrier-native item. -/
def Item.to_dict (i : Item) : Json :=
  .obj (jfields
    [("item_reference", jOptStr i.item_reference),
     ("product_id", jOptStr i.product_id),
     ("item_description", jOptStr i.item_description),
     ("length", jOptDec i.length),
     ("width", jOptDec i.width),
     ("height", jOptDec i.height),
     ("cubic_volume", jOptDec i.cubic_volume),
     ("weight", jOptDec i.weight),
     ("contains_dangerous_goods", jOptBool i.contains_dangerous_goods),
     ("transportable_by_air", jOptBool i.transportable_by_air),
     ("dangerous_goods_declaration", jOptStr i.dangerous_goods_declaration),
     ("authority_to_leave", .bool i.authority_to_leave),
     ("reason_for_return", jOptStr i.reason_for_return),
     ("allow_partial_delivery", .bool i.allow_partial_delivery),
     ("packaging_type", jOptStr i.packaging_type),
     ("atl_number", jOptStr i.atl_number),
     ("features", jOptStr i.features),
     ("tracking_details", jOptStr i.tracking_details),
     ("commercial_value", jOptBool i.commercial_value),
     ("export_declaration_number", jOptStr i.export_declaration_number),
     ("import_reference_number", jOptStr i.import_reference_number),
     ("classification_type", jOptStr i.classification_type),
     ("description_of_other", jOptStr i.description_of_other),
     ("international_parcel_sender_name",
      jOptStr i.international_parcel_sender_name),
     ("non_delivery_action", jOptStr i.non_delivery_action),
     ("certificate_number", jOptStr i.certificate_number),
     ("licence_number", jOptStr i.licence_number),
     ("invoice_number", jOptStr i.invoice_number),
     ("comments", jOptStr i.comments),
     ("tariff_concession", jOptStr i.tariff_concession),
     ("free_trade_applicable", jOptBool i.free_trade_applicable)])

/-- Plain-mapping form of a carrier-native shipment. -/
def Shipment.to_dict (s : Shipment) : Json :=
  .obj (jfields
    [("shipment_reference", jOptStr s.shipment_reference),
     ("sender_references", jOptStrList s.sender_references),
     ("goods_descriptions", jOptStrList s.goods_descriptions),
     ("despatch_date", jOptStr s.despatch_date),
     ("consolidate", jOptBool s.consolidate),
     ("email_tracking_enabled", .bool s.email_tracking_enabled),
     ("from_", s.from_.to_dict),
     ("to", s.to_.to_dict),
     ("dangerous_goods", jOptBool s.dangerous_goods),
     ("movement_type", jOptStr s.movement_type),
     ("features", jOptStr s.features),
     ("authorisation_number", jOptStr s.authorisation_number),
     ("items", .arr (jitems (s.items.map Item.to_dict)))])

/-- Plain-mapping form of the carrier-native rate request (the model of
purplship.core.utils.to_dict, modelled from the spec: the native request
object converted to a plain mapping). -/
def to_dict (r : ShippingPriceRequest) : Json :=
  .obj (jfields [("shipments", .arr (jitems (r.shipments.map Shipment.to_dict)))])

/-- Embedding of _request_serializer: plain-mapping form rendered to a
JSON string with no custom formatting. -/
def request_serializer (request : ShippingPriceRequest) : String :=
  jsonify (to_dict request)

/-- Carrier-native request constructed by shipping_price_request for an
accepted payload: the source's single ShippingPriceRequest constructor
call, field by field. -/
def build_request (entries : List (String × String))
    (payload : RateRequest) : ShippingPriceRequest :=
  let packaging_type := packaging_lookup entries payload.parcel.packaging_type
  { shipments :=
        [{ shipment_reference := payload.parcel.reference
           sender_references := none
           goods_descriptions := none
           despatch_date := none
           consolidate := none
           email_tracking_enabled := payload.shipper.email.isSome
           from_ :=
             { name := payload.shipper.person_name
               type := none
               lines :=
                 [payload.shipper.address_line1,
                  payload.shipper.address_line2]
               suburb := payload.shipper.suburb
               state := payload.shipper.state_code
               postcode := payload.shipper.postal_code
               country := payload.shipper.country_code
               phone := payload.shipper.phone_number
               email := payload.shipper.email }
           to_ :=
             { name := payload.recipient.person_name
               business_name := payload.recipient.company_name
               type := none
               lines :=
                 [payload.recipient.address_line1,
                  payload.recipient.address_line2]
               suburb := payload.recipient.suburb
               state := payload.recipient.state_code
               postcode := payload.recipient.postal_code
               country := payload.recipient.country_code
               phone := payload.recipient.phone_number
               email := payload.recipient.email
               delivery_instructions := none }
           dangerous_goods := none
           movement_type := none
           features := none
           authorisation_number := none
           items :=
             [{ item_reference := payload.parcel.reference
                product_id := payload.parcel.id
                item_description := payload.parcel.description
                length := payload.parcel.length
                width := payload.parcel.width
                height := payload.parcel.height
                cubic_volume := none
                weight := payload.parcel.weight
                contains_dangerous_goods := none
                transportable_by_air := none
                dangerous_goods_declaration := none
                authority_to_leave := false
                reason_for_return := none
                allow_partial_delivery := true
                packaging_type := packaging_type
                atl_number := none
                features := none
                tracking_details := none
                commercial_value := none
                export_declaration_number := none
                import_reference_number := none
                classification_type := none
                description_of_other := none
                international_parcel_sender_name := none
                non_delivery_action := none
                certificate_number := none
                licence_number := none
                invoice_number := none
                comments := none
                tariff_concession := none
                free_trade_applicable := none }] }] }

/-- Embedding of shipping_price_request: validates the origin country,
raising OriginNotServicedError with the offending country code and the
carrier name when the shipper country is truthy and differs from AU,
and otherwise wraps the built carrier-native request with the request
serializer. -/
def shipping_price_request (entries : List (String × String))
    (payload : RateRequest) :
    Except OriginNotServicedError (Serializable ShippingPriceRequest) :=
  if strTruthy payload.shipper.country_code ∧
      payload.shipper.country_code ≠ some Country.AU.name then
    .error { country_code := payload.shipper.country_code.getD ""
             carrier := "Australia post" }
  else
    .ok { value := build_request entries payload
          serializer := request_serializer }

end Aups

namespace Purolator

/-- Normalized shipment payload of the unified API
(purplship.core.models.ShipmentRequest, modelled from the spec: shipper,
recipient, label format, caller's reference). -/
structure ShipmentRequest where
  shipper : Party
  recipient : Party
  label_type : Option String := none
  reference : Option String := none
  deriving Repr, DecidableEq

/-- Member names of the carrier print-type enumeration.  Modelled from
the spec: purplship.providers.purolator.units.PrintType (outside src/)
maps the requested label format to a carrier print-type enum name, with
PDF and ZPL the print types named by the spec. -/
def PrintType.names : List String :=
  ["PDF", "ZPL"]

/-- ASCII upper-casing of one character. -/
def upperChar (c : Char) : Char :=
  if 97 ≤ c.toNat ∧ c.toNat ≤ 122 then Char.ofNat (c.toNat - 32) else c

/-- ASCII upper-casing of a string. -/
def upperStr (s : String) : String :=
  String.mk (s.data.map upperChar)

/-- Lookup of the print-type enumeration by requested label format.
Modelled from the spec: the mapping matches the label format against
the member names case-insensitively; an unknown format maps to no
member. -/
def PrintType.map (key : String) : Option String :=
  PrintType.names.find? fun n => upperStr n = upperStr key

/-- Python-or with the PDF default applied to the payload's label type:
an absent or empty (falsy) label type stands for PDF. -/
def label_or_pdf : Option String → String
  | none => "PDF"
  | some s => if s = "" then "PDF" else s

/-- Print-type enum name used by get_shipping_documents_request for a
payload's label type. -/
def print_type_name (label_type : Option String) : Option String :=
  PrintType.map (label_or_pdf label_type)

/-- String concatenation helper (purplship.core.utils.SF.concat_str
with join; outside src/).  Modelled from the spec: concatenates the
given pieces with the given separator, here the empty one. -/
def concat_str (separator : String) (items : List String) : String :=
  String.intercalate separator items

/-- Document-type string computed by get_shipping_documents_request:
the Domestic or International prefix chosen by country-code equality,
the BillOfLading core, and the Thermal suffix exactly for the ZPL print
type, concatenated with no separator. -/
def document_type (payload : ShipmentRequest) : String :=
  let is_international :=
    payload.shipper.country_code ≠ payload.recipient.country_code
  let label_type := print_type_name payload.label_type
  concat_str ""
    [(if is_international then "International" else "Domestic"),
     "BillOfLading",
     (if label_type = some "ZPL" then "Thermal" else "")]

/-- Request header of the documents service envelope
(purolator_lib.shipping_documents_service_1_3_0.RequestContext;
external SDK, fields as populated by the source). -/
structure RequestContext where
  Version : String
  Language : String
  GroupID : String
  RequestReference : Option String
  UserToken : String
  deriving Repr, DecidableEq

/-- Tracking identifier wrapper
(purolator_lib.shipping_documents_service_1_3_0.PIN). -/
structure PIN where
  Value : String
  deriving Repr, DecidableEq

/-- Document-type list wrapper
(purolator_lib.shipping_documents_service_1_3_0.DocumentTypes). -/
structure DocumentTypes where
  DocumentType : List String
  deriving Repr, DecidableEq

/-- One document criterion
(purolator_lib.shipping_documents_service_1_3_0.DocumentCriteria). -/
structure DocumentCriteria where
  pin : PIN
  documentTypes : DocumentTypes
  deriving Repr, DecidableEq

/-- Criteria array wrapper
(purolator_lib.shipping_documents_service_1_3_0.ArrayOfDocumentCriteria). -/
structure ArrayOfDocumentCriteria where
  DocumentCriteria : List DocumentCriteria
  deriving Repr, DecidableEq

/-- Body of the documents request
(purolator_lib.shipping_documents_service_1_3_0.GetDocumentsRequest;
fields as populated by the source). -/
structure GetDocumentsRequest where
  OutputType : Option String
  Synchronous : Bool
  DocumentCriterium : ArrayOfDocumentCriteria
  deriving Repr, DecidableEq

/-- Two-part SOAP envelope built by create_envelope
(purplship.core.utils.soap, modelled from the spec: a header plus body
request envelope).  The in-place namespace-prefix mutation of the XML
serializer is a rendering concern outside this embedding. -/
structure Envelope where
  header : RequestContext
  body : GetDocumentsRequest
  deriving Repr, DecidableEq

/-- Embedding of get_shipping_documents_request: computes the document
type, then populates the envelope header (protocol version constant,
language, empty group id, caller's reference, auth token) and body
(output type, synchronous flag fixed true, one document criterion keyed
by the tracking identifier with the singleton computed document-type
list). -/
def get_shipping_documents_request (pin : String)
    (payload : ShipmentRequest) (settings : Settings) : Envelope :=
  let label_type := print_type_name payload.label_type
  { header :=
      { Version := "1.3"
        Language := settings.language
        GroupID := ""
        RequestReference := payload.reference
        UserToken := settings.user_token }
    body :=
      { OutputType := label_type
        Synchronous := true
        DocumentCriterium :=
          { DocumentCriteria :=
              [{ pin := { Value := pin }
                 documentTypes :=
                   { DocumentType := [document_type payload] } }] } } }

end Purolator

/-! Helper lemmas: decimal digit strings and their numeric value. -/

theorem digitsToNat_from (a : Nat) (B : List Char) :
    B.foldl (fun acc c => acc * 10 + digitVal c) a
      = a * 10 ^ B.length + digitsToNat B := by
  induction B generalizing a with
  | nil => simp [digitsToNat]
  | cons c cs ih =>
    simp only [List.foldl_cons, digitsToNat, List.length_cons]
    rw [ih, ih (0 * 10 + digitVal c)]
    ring

theorem digitsToNat_append (A B : List Char) :
    digitsToNat (A ++ B) = digitsToNat A * 10 ^ B.length + digitsToNat B := by
  simp only [digitsToNat, List.foldl_append]
  rw [digitsToNat_from]
  rfl

theorem digitChar_isDigit {d : Nat} (h : d < 10) :
    (digitChar d).isDigit = true := by
  interval_cases d <;> decide

theorem digitVal_digitChar {d : Nat} (h : d < 10) :
    digitVal (digitChar d) = d := by
  interval_cases d <;> decide

theorem natChars_all_digit (n : Nat) :
    ∀ c ∈ natChars n, c.isDigit = true := by
  intro c hc
  simp only [natChars, List.mem_reverse, List.mem_map] at hc
  obtain ⟨d, hd, rfl⟩ := hc
  exact digitChar_isDigit (Nat.digits_lt_base (by norm_num) hd)

theorem digitsToNat_natChars (n : Nat) :
    digitsToNat (natChars n) = n := by
  have key : ∀ L : List Nat, (∀ d ∈ L, d < 10) →
      digitsToNat ((L.map digitChar).reverse) = Nat.ofDigits 10 L := by
    intro L hL
    induction L with
    | nil => simp [digitsToNat, Nat.ofDigits]
    | cons d L ih =>
      have hd : d < 10 := hL d (by simp)
      simp only [List.map_cons, List.reverse_cons, Nat.ofDigits_cons]
      rw [digitsToNat_append, ih (fun x hx => hL x (by simp [hx]))]
      simp [digitsToNat, digitVal_digitChar hd]
      ring
  have := key (Nat.digits 10 n) fun d hd => Nat.digits_lt_base (by norm_num) hd
  simpa [natChars, Nat.ofDigits_digits] using this

theorem natRepr_ne_nil (n : Nat) : natRepr n ≠ [] := by
  by_cases h : n = 0
  · simp [natRepr, h]
  · simp only [natRepr, if_neg h, natChars]
    intro hc
    have : Nat.digits 10 n = [] := by
      cases he : Nat.digits 10 n with
      | nil => rfl
      | cons d L => rw [he] at hc; simp at hc
    rw [Nat.digits_eq_nil_iff_eq_zero] at this
    exact h this

theorem natRepr_all_digit (n : Nat) :
    ∀ c ∈ natRepr n, c.isDigit = true := by
  intro c hc
  by_cases h : n = 0
  · simp [natRepr, h] at hc
    subst hc
    decide
  · rw [natRepr, if_neg h] at hc
    exact natChars_all_digit n c hc

theorem digitsToNat_natRepr (n : Nat) :
    digitsToNat (natRepr n) = n := by
  by_cases h : n = 0
  · simp [natRepr, h, digitsToNat, digitVal]
  · rw [natRepr, if_neg h]
    exact digitsToNat_natChars n

theorem natChars_length_le {r e : Nat} (h : r < 10 ^ e) :
    (natChars r).length ≤ e := by
  simp only [natChars, List.length_reverse, List.length_map]
  rcases Nat.eq_zero_or_pos r with hr | hr
  · simp [hr]
  · rw [Nat.digits_len 10 r (by norm_num) (by omega)]
    have := Nat.log_lt_of_lt_pow (by omega : r ≠ 0) h
    omega

theorem padZeros_all_digit (e : Nat) (ds : List Char)
    (h : ∀ c ∈ ds, c.isDigit = true) :
    ∀ c ∈ padZeros e ds, c.isDigit = true := by
  intro c hc
  simp only [padZeros, List.mem_append, List.mem_replicate] at hc
  rcases hc with ⟨-, rfl⟩ | hc
  · decide
  · exact h c hc

theorem padZeros_length {e : Nat} {ds : List Char} (h : ds.length ≤ e) :
    (padZeros e ds).length = e := by
  simp [padZeros]
  omega

theorem digitsToNat_replicate_zero (k : Nat) :
    digitsToNat (List.replicate k (Char.ofNat 48)) = 0 := by
  induction k with
  | zero => simp [digitsToNat]
  | succ k ih =>
    have : List.replicate (k + 1) (Char.ofNat 48)
        = Char.ofNat 48 :: List.replicate k (Char.ofNat 48) := rfl
    rw [this]
    have h0 : digitVal (Char.ofNat 48) = 0 := by decide
    simp only [digitsToNat, List.foldl_cons]
    rw [digitsToNat_from]
    simpa [digitsToNat, h0] using ih

theorem digitsToNat_padZeros (e : Nat) (ds : List Char) :
    digitsToNat (padZeros e ds) = digitsToNat ds := by
  simp only [padZeros]
  rw [digitsToNat_append, digitsToNat_replicate_zero]
  ring

theorem takeWhile_append_all {A B : List Char} {p : Char → Bool}
    (hA : ∀ c ∈ A, p c = true)
    (hB : ∀ c cs, B = c :: cs → p c = false) :
    (A ++ B).takeWhile p = A ∧ (A ++ B).dropWhile p = B := by
  induction A with
  | nil =>
    cases B with
    | nil => simp
    | cons c cs => simp [List.takeWhile, List.dropWhile, hB c cs rfl]
  | cons a A ih =>
    have ha := hA a (by simp)
    have := ih (fun c hc => hA c (by simp [hc]))
    simp [List.takeWhile, List.dropWhile, ha, this.1, this.2]

theorem isDigit_toNat_bounds {c : Char} (h : c.isDigit = true) :
    48 ≤ c.toNat ∧ c.toNat ≤ 57 := by
  simp [Char.isDigit] at h
  exact ⟨h.1, h.2⟩

theorem char_ne_of_toNat_ne {c d : Char} (h : c.toNat ≠ d.toNat) : c ≠ d := by
  intro hc
  exact h (by rw [hc])

theorem natRepr_isEmpty (n : Nat) : (natRepr n).isEmpty = false := by
  cases h : natRepr n with
  | nil => exact absurd h (natRepr_ne_nil n)
  | cons a l => simp

theorem numBoundary_not_digit {rest : List Char} (h : numBoundary rest) :
    ∀ c cs, rest = c :: cs → c.isDigit = false := by
  intro c cs hcs
  rw [hcs] at h
  exact h.1

theorem parseNumberCore_decCore (neg : Bool) (a e : Nat) (rest : List Char)
    (hrest : numBoundary rest) :
    parseNumberCore neg (decCoreChars a e ++ rest)
      = some ({ mantissa := cond neg (-(a : Int)) (a : Int),
                exponent := e }, rest) := by
  by_cases he : e = 0
  · subst he
    have hd : decCoreChars a 0 = natRepr a := by simp [decCoreChars]
    rw [hd]
    have tw := takeWhile_append_all (p := Char.isDigit) (natRepr_all_digit a)
      (numBoundary_not_digit hrest)
    unfold parseNumberCore
    rw [tw.1, tw.2, natRepr_isEmpty, if_neg (by simp)]
    cases rest with
    | nil => simp [digitsToNat_natRepr]
    | cons c cs3 =>
      have hc : ¬(c = Char.ofNat 46) := hrest.2
      simp [hc, digitsToNat_natRepr]
  · have hpow : 0 < 10 ^ e := Nat.pos_pow_of_pos e (by norm_num)
    have hrlt : a % 10 ^ e < 10 ^ e := Nat.mod_lt _ hpow
    have hlen : (natChars (a % 10 ^ e)).length ≤ e := natChars_length_le hrlt
    have hplen : (padZeros e (natChars (a % 10 ^ e))).length = e :=
      padZeros_length hlen
    have hd : decCoreChars a e ++ rest = natRepr (a / 10 ^ e) ++
        (Char.ofNat 46 :: (padZeros e (natChars (a % 10 ^ e)) ++ rest)) := by
      simp [decCoreChars, he]
    rw [hd]
    have tw := takeWhile_append_all (p := Char.isDigit)
      (natRepr_all_digit (a / 10 ^ e))
      (B := Char.ofNat 46 :: (padZeros e (natChars (a % 10 ^ e)) ++ rest))
      (by intro c cs hcs
          injection hcs with h1 h2
          rw [h1.symm]
          decide)
    have twf := takeWhile_append_all (p := Char.isDigit)
      (padZeros_all_digit e _ (natChars_all_digit (a % 10 ^ e)))
      (numBoundary_not_digit hrest)
    have hfpne : (padZeros e (natChars (a % 10 ^ e))).isEmpty = false := by
      cases hp : padZeros e (natChars (a % 10 ^ e)) with
      | nil => rw [hp] at hplen; simp at hplen; omega
      | cons x xs => simp
    have hval : digitsToNat (natRepr (a / 10 ^ e) ++
        padZeros e (natChars (a % 10 ^ e))) = a := by
      rw [digitsToNat_append, digitsToNat_padZeros, digitsToNat_natRepr,
        digitsToNat_natChars, hplen]
      exact Nat.div_add_mod' a (10 ^ e)
    unfold parseNumberCore
    rw [tw.1, tw.2, natRepr_isEmpty, if_neg (by simp)]
    dsimp only
    rw [if_pos rfl, twf.1, twf.2, hfpne, if_neg (by simp), hval, hplen]

theorem decCoreChars_head (a e : Nat) :
    ∃ c cs, decCoreChars a e = c :: cs ∧ c.isDigit = true := by
  by_cases he : e = 0
  · subst he
    simp only [decCoreChars, if_pos rfl]
    cases h : natRepr a with
    | nil => exact absurd h (natRepr_ne_nil a)
    | cons c cs =>
      exact ⟨c, cs, rfl, natRepr_all_digit a c (by rw [h]; simp)⟩
  · simp only [decCoreChars, if_neg he]
    cases h : natRepr (a / 10 ^ e) with
    | nil => exact absurd h (natRepr_ne_nil _)
    | cons c cs =>
      refine ⟨c, cs ++ Char.ofNat 46 :: padZeros e (natChars (a % 10 ^ e)),
        by simp, natRepr_all_digit _ c (by rw [h]; simp)⟩

theorem parseNumber_decChars (d : Dec) (rest : List Char)
    (hrest : numBoundary rest) :
    parseNumber (decChars d ++ rest) = some (d, rest) := by
  obtain ⟨m, e⟩ := d
  by_cases hm : m < 0
  · simp only [decChars, if_pos hm, List.cons_append, List.nil_append]
    simp only [parseNumber, if_pos rfl, if_true]
    rw [parseNumberCore_decCore true _ _ _ hrest]
    simp only [cond_true, Option.some.injEq, Prod.mk.injEq, Dec.mk.injEq]
    exact And.intro (And.intro (by omega) True.intro) True.intro
  · simp only [decChars, if_neg hm, List.nil_append]
    obtain ⟨c, cs, hcs, hdig⟩ := decCoreChars_head m.natAbs e
    have hb := isDigit_toNat_bounds hdig
    have hne : ¬(c = Char.ofNat 45) := by
      apply char_ne_of_toNat_ne
      have : (Char.ofNat 45).toNat = 45 := by decide
      omega
    rw [hcs, List.cons_append]
    simp only [parseNumber, if_neg hne]
    rw [← List.cons_append, ← hcs]
    rw [parseNumberCore_decCore false _ _ _ hrest]
    simp only [cond_false, Option.some.injEq, Prod.mk.injEq, Dec.mk.injEq]
    exact And.intro (And.intro (by omega) True.intro) True.intro

/-! Helper lemmas: JSON string escaping round trip. -/

theorem hexVal_hexDigitChar {n : Nat} (h : n < 16) :
    hexVal (hexDigitChar n) = some n := by
  interval_cases n <;> decide

theorem psb_quote (tl : List Char) :
    parseStringBody (quoteChar :: tl) = some ([], tl) := by
  rw [parseStringBody.eq_def]
  simp +decide

theorem psb_esc_quote (tl : List Char) :
    parseStringBody (escChar :: quoteChar :: tl)
      = (fun r => (quoteChar :: r.1, r.2)) <$> parseStringBody tl := by
  rw [parseStringBody.eq_def]
  simp +decide

theorem psb_esc_esc (tl : List Char) :
    parseStringBody (escChar :: escChar :: tl)
      = (fun r => (escChar :: r.1, r.2)) <$> parseStringBody tl := by
  rw [parseStringBody.eq_def]
  simp +decide

theorem psb_esc_n (tl : List Char) :
    parseStringBody (escChar :: Char.ofNat 110 :: tl)
      = (fun r => (Char.ofNat 10 :: r.1, r.2)) <$> parseStringBody tl := by
  rw [parseStringBody.eq_def]
  simp +decide

theorem psb_esc_t (tl : List Char) :
    parseStringBody (escChar :: Char.ofNat 116 :: tl)
      = (fun r => (Char.ofNat 9 :: r.1, r.2)) <$> parseStringBody tl := by
  rw [parseStringBody.eq_def]
  simp +decide

theorem psb_esc_r (tl : List Char) :
    parseStringBody (escChar :: Char.ofNat 114 :: tl)
      = (fun r => (Char.ofNat 13 :: r.1, r.2)) <$> parseStringBody tl := by
  rw [parseStringBody.eq_def]
  simp +decide

theorem psb_esc_u (a b : Nat) (ha : a < 16) (hb : b < 16) (tl : List Char) :
    parseStringBody (escChar :: Char.ofNat 117 :: Char.ofNat 48 ::
        Char.ofNat 48 :: hexDigitChar a :: hexDigitChar b :: tl)
      = (fun r => (Char.ofNat (a * 16 + b) :: r.1, r.2)) <$> parseStringBody tl := by
  rw [parseStringBody.eq_def]
  simp +decide [hexVal_hexDigitChar ha, hexVal_hexDigitChar hb,
    (show hexVal (Char.ofNat 48) = some 0 from by decide)]

theorem psb_plain (c : Char) (tl : List Char) (h1 : ¬(c = quoteChar))
    (h2 : ¬(c = escChar)) :
    parseStringBody (c :: tl)
      = (fun r => (c :: r.1, r.2)) <$> parseStringBody tl := by
  rw [parseStringBody.eq_def]
  simp [h1, h2]

theorem parseStringBody_escape (s rest : List Char) :
    parseStringBody (escapeChars s ++ quoteChar :: rest) = some (s, rest) := by
  induction s with
  | nil =>
    simp only [escapeChars, List.nil_append]
    exact psb_quote rest
  | cons c cs ih =>
    show parseStringBody ((escapeChar c ++ escapeChars cs) ++ quoteChar :: rest)
      = some (c :: cs, rest)
    rw [List.append_assoc]
    by_cases h1 : c = quoteChar
    · subst h1
      rw [show escapeChar quoteChar = [escChar, quoteChar] from by decide]
      simp only [List.cons_append, List.nil_append]
      rw [psb_esc_quote, ih]
      rfl
    · by_cases h2 : c = escChar
      · subst h2
        rw [show escapeChar escChar = [escChar, escChar] from by decide]
        simp only [List.cons_append, List.nil_append]
        rw [psb_esc_esc, ih]
        rfl
      · by_cases h3 : c = Char.ofNat 10
        · subst h3
          rw [show escapeChar (Char.ofNat 10) = [escChar, Char.ofNat 110] from by decide]
          simp only [List.cons_append, List.nil_append]
          rw [psb_esc_n, ih]
          rfl
        · by_cases h4 : c = Char.ofNat 9
          · subst h4
            rw [show escapeChar (Char.ofNat 9) = [escChar, Char.ofNat 116] from by decide]
            simp only [List.cons_append, List.nil_append]
            rw [psb_esc_t, ih]
            rfl
          · by_cases h5 : c = Char.ofNat 13
            · subst h5
              rw [show escapeChar (Char.ofNat 13)
                  = [escChar, Char.ofNat 114] from by decide]
              simp only [List.cons_append, List.nil_append]
              rw [psb_esc_r, ih]
              rfl
            · by_cases h6 : c.toNat < 32
              · have he : escapeChar c = [escChar, Char.ofNat 117, Char.ofNat 48,
                    Char.ofNat 48, hexDigitChar (c.toNat / 16),
                    hexDigitChar (c.toNat % 16)] := by
                  simp [escapeChar, h1, h2, h3, h4, h5, h6]
                rw [he]
                simp only [List.cons_append, List.nil_append]
                rw [psb_esc_u (c.toNat / 16) (c.toNat % 16)
                  (by omega) (Nat.mod_lt _ (by norm_num)), ih]
                have hc : Char.ofNat (c.toNat / 16 * 16 + c.toNat % 16) = c := by
                  rw [Nat.div_add_mod']
                  exact Char.ofNat_toNat c
                rw [hc]
                rfl
              · have he : escapeChar c = [c] := by
                  simp [escapeChar, h1, h2, h3, h4, h5, h6]
                rw [he]
                simp only [List.cons_append, List.nil_append]
                rw [psb_plain c _ h1 h2, ih]
                rfl

/-! Helper lemmas: head characters of printed values and whitespace. -/

theorem skipWs_cons {c : Char} (h : isWs c = false) (cs : List Char) :
    skipWs (c :: cs) = c :: cs := by
  simp [skipWs, h]

theorem not_ws_of_digit {c : Char} (h : c.isDigit = true) : isWs c = false := by
  have hb := isDigit_toNat_bounds h
  have h32 : (Char.ofNat 32).toNat = 32 := by decide
  have h10 : (Char.ofNat 10).toNat = 10 := by decide
  have h9 : (Char.ofNat 9).toNat = 9 := by decide
  have h13 : (Char.ofNat 13).toNat = 13 := by decide
  simp only [isWs, decide_eq_false_iff_not]
  push_neg
  exact ⟨char_ne_of_toNat_ne (by omega), char_ne_of_toNat_ne (by omega),
    char_ne_of_toNat_ne (by omega), char_ne_of_toNat_ne (by omega)⟩

theorem digit_ne_93 {c : Char} (h : c.isDigit = true) : c ≠ Char.ofNat 93 := by
  have hb := isDigit_toNat_bounds h
  have : (Char.ofNat 93).toNat = 93 := by decide
  exact char_ne_of_toNat_ne (by omega)

theorem digit_ne_rbrace {c : Char} (h : c.isDigit = true) : c ≠ rbraceChar := by
  have hb := isDigit_toNat_bounds h
  have : rbraceChar.toNat = 125 := by decide
  exact char_ne_of_toNat_ne (by omega)

theorem decChars_head (d : Dec) :
    ∃ c cs, decChars d = c :: cs ∧ (c.isDigit = true ∨ c = Char.ofNat 45) := by
  by_cases hm : d.mantissa < 0
  · exact ⟨Char.ofNat 45, decCoreChars d.mantissa.natAbs d.exponent,
      by simp [decChars, hm], Or.inr rfl⟩
  · obtain ⟨c, cs, hcs, hdig⟩ := decCoreChars_head d.mantissa.natAbs d.exponent
    exact ⟨c, cs, by simp [decChars, hm, hcs], Or.inl hdig⟩

theorem printJson_head (j : Json) :
    ∃ c cs, printJson j = c :: cs ∧ isWs c = false ∧
      c ≠ Char.ofNat 93 ∧ c ≠ rbraceChar := by
  cases j with
  | null =>
    exact ⟨Char.ofNat 110, [Char.ofNat 117, Char.ofNat 108, Char.ofNat 108],
      by simp [printJson], by decide, by decide, by decide⟩
  | bool b =>
    cases b with
    | true =>
      exact ⟨Char.ofNat 116, [Char.ofNat 114, Char.ofNat 117, Char.ofNat 101],
        by simp [printJson], by decide, by decide, by decide⟩
    | false =>
      exact ⟨Char.ofNat 102,
        [Char.ofNat 97, Char.ofNat 108, Char.ofNat 115, Char.ofNat 101],
        by simp [printJson], by decide, by decide, by decide⟩
  | num d =>
    obtain ⟨c, cs, hcs, hd⟩ := decChars_head d
    rcases hd with hd | hd
    · exact ⟨c, cs, by simp [printJson, hcs], not_ws_of_digit hd,
        digit_ne_93 hd, digit_ne_rbrace hd⟩
    · subst hd
      exact ⟨Char.ofNat 45, cs, by simp [printJson, hcs], by decide, by decide,
        by decide⟩
  | str s =>
    exact ⟨quoteChar, escapeChars s.data ++ [quoteChar],
      by simp [printJson, strChars], by decide, by decide, by decide⟩
  | arr xs =>
    exact ⟨Char.ofNat 91, printArr xs ++ [Char.ofNat 93], by simp [printJson],
      by decide, by decide, by decide⟩
  | obj fs =>
    exact ⟨lbraceChar, printObj fs ++ [rbraceChar], by simp [printJson],
      by decide, by decide, by decide⟩

theorem printArr_head (v : Json) (tl : JsonList) :
    ∃ c cs, printArr (.cons v tl) = c :: cs ∧ isWs c = false ∧
      c ≠ Char.ofNat 93 ∧ c ≠ rbraceChar := by
  obtain ⟨c, cs, hcs, h⟩ := printJson_head v
  cases tl with
  | nil => exact ⟨c, cs, by simp [printArr, hcs], h⟩
  | cons w tl2 =>
    exact ⟨c, cs ++ Char.ofNat 44 :: printArr (.cons w tl2),
      by simp [printArr, hcs], h⟩

theorem printObj_head (k : String) (v : Json) (tl : JsonFields) :
    ∃ cs, printObj (.cons k v tl) = quoteChar :: cs := by
  cases tl with
  | nil =>
    exact ⟨escapeChars k.data ++ quoteChar :: Char.ofNat 58 :: printJson v,
      by simp [printObj, strChars]⟩
  | cons k2 w tl2 =>
    exact ⟨escapeChars k.data ++ quoteChar :: Char.ofNat 58 ::
        (printJson v ++ Char.ofNat 44 :: printObj (.cons k2 w tl2)),
      by simp [printObj, strChars]⟩

theorem fuelJson_pos (j : Json) : 1 ≤ fuelJson j := by
  cases j <;> simp [fuelJson]

theorem numHead_props {c : Char} (hd : c.isDigit = true ∨ c = Char.ofNat 45) :
    isWs c = false ∧ ¬(c = quoteChar) ∧ ¬(c = Char.ofNat 91) ∧
      ¬(c = lbraceChar) ∧ ¬(c = Char.ofNat 116) ∧ ¬(c = Char.ofNat 102) ∧
      ¬(c = Char.ofNat 110) := by
  rcases hd with hd | hd
  · have hb := isDigit_toNat_bounds hd
    have e1 : quoteChar.toNat = 34 := by decide
    have e2 : (Char.ofNat 91).toNat = 91 := by decide
    have e3 : lbraceChar.toNat = 123 := by decide
    have e4 : (Char.ofNat 116).toNat = 116 := by decide
    have e5 : (Char.ofNat 102).toNat = 102 := by decide
    have e6 : (Char.ofNat 110).toNat = 110 := by decide
    exact ⟨not_ws_of_digit hd, char_ne_of_toNat_ne (by omega),
      char_ne_of_toNat_ne (by omega), char_ne_of_toNat_ne (by omega),
      char_ne_of_toNat_ne (by omega), char_ne_of_toNat_ne (by omega),
      char_ne_of_toNat_ne (by omega)⟩
  · subst hd
    exact ⟨by decide, by decide, by decide, by decide, by decide, by decide,
      by decide⟩

/-! The JSON print/parse round trip. -/

theorem parseItems_succ (fuel : Nat) (cs : List Char) :
    parseItems (fuel + 1) cs
      = match parseValue fuel cs with
        | none => none
        | some (v, cs1) =>
          match skipWs cs1 with
          | c :: cs2 =>
            if c = Char.ofNat 44 then
              (fun r => (JsonList.cons v r.1, r.2)) <$> parseItems fuel cs2
            else if c = Char.ofNat 93 then some (JsonList.cons v .nil, cs2)
            else none
          | [] => none := by
  simp [parseItems]

theorem parseMembers_succ (fuel : Nat) (cs : List Char) :
    parseMembers (fuel + 1) cs
      = match skipWs cs with
        | c :: rest =>
          if c = quoteChar then
            match parseStringBody rest with
            | none => none
            | some (k, cs1) =>
              match skipWs cs1 with
              | c1 :: cs2 =>
                if c1 = Char.ofNat 58 then
                  match parseValue fuel cs2 with
                  | none => none
                  | some (v, cs3) =>
                    match skipWs cs3 with
                    | c2 :: cs4 =>
                      if c2 = Char.ofNat 44 then
                        (fun r => (JsonFields.cons (String.mk k) v r.1, r.2)) <$>
                          parseMembers fuel cs4
                      else if c2 = rbraceChar then
                        some (JsonFields.cons (String.mk k) v .nil, cs4)
                      else none
                    | [] => none
                else none
              | [] => none
          else none
        | [] => none := by
  simp [parseMembers]

mutual

theorem parse_print (j : Json) (f : Nat) (rest : List Char)
    (hf : fuelJson j ≤ f + 1) (hrest : numBoundary rest) :
    parseValue (f + 1) (printJson j ++ rest) = some (j, rest) := by
  cases j with
  | null =>
    have hp : printJson Json.null = [Char.ofNat 110, Char.ofNat 117,
        Char.ofNat 108, Char.ofNat 108] := by simp [printJson]
    rw [hp]
    simp +decide [parseValue, skipWs]
  | bool b =>
    cases b with
    | true =>
      have hp : printJson (Json.bool true) = [Char.ofNat 116, Char.ofNat 114,
          Char.ofNat 117, Char.ofNat 101] := by simp [printJson]
      rw [hp]
      simp +decide [parseValue, skipWs]
    | false =>
      have hp : printJson (Json.bool false) = [Char.ofNat 102, Char.ofNat 97,
          Char.ofNat 108, Char.ofNat 115, Char.ofNat 101] := by simp [printJson]
      rw [hp]
      simp +decide [parseValue, skipWs]
  | num d =>
    obtain ⟨c, cs, hcs, hd⟩ := decChars_head d
    obtain ⟨hws, h1, h2, h3, h4, h5, h6⟩ := numHead_props hd
    have hnum := parseNumber_decChars d rest hrest
    rw [hcs] at hnum
    simp only [List.cons_append] at hnum
    have hp : printJson (Json.num d) = decChars d := by simp [printJson]
    rw [hp, hcs, List.cons_append]
    simp +decide [parseValue, skipWs_cons, hws, h1, h2, h3, h4, h5, h6, hnum]
  | str s =>
    obtain ⟨sd⟩ := s
    have hkey := parseStringBody_escape sd rest
    have hp : printJson (Json.str (String.mk sd)) ++ rest
        = quoteChar :: (escapeChars sd ++ quoteChar :: rest) := by
      simp [printJson, strChars]
    rw [hp]
    simp +decide [parseValue, skipWs_cons, hkey]
  | arr xs =>
    cases xs with
    | nil =>
      have hp : printJson (Json.arr JsonList.nil)
          = [Char.ofNat 91, Char.ofNat 93] := by
        simp [printJson, printArr]
      rw [hp]
      simp +decide [parseValue, skipWs]
    | cons v tl =>
      have hfi : fuelItems (JsonList.cons v tl) ≤ f := by
        simp only [fuelJson] at hf
        omega
      have hitems := parse_print_items (JsonList.cons v tl) f rest
        (by simp) hfi
      obtain ⟨c, cs, hcs, hws, h93, hrb⟩ := printArr_head v tl
      rw [hcs] at hitems
      simp only [List.cons_append] at hitems
      have hp : printJson (Json.arr (JsonList.cons v tl)) ++ rest
          = Char.ofNat 91 ::
            (printArr (JsonList.cons v tl) ++ Char.ofNat 93 :: rest) := by
        simp [printJson]
      rw [hp, hcs, List.cons_append]
      simp +decide [parseValue, skipWs, hws, h93, hitems]
  | obj fs =>
    cases fs with
    | nil =>
      have hp : printJson (Json.obj JsonFields.nil)
          = [lbraceChar, rbraceChar] := by
        simp [printJson, printObj]
      rw [hp]
      simp +decide [parseValue, skipWs]
    | cons k v tl =>
      have hfm : fuelMembers (JsonFields.cons k v tl) ≤ f := by
        simp only [fuelJson] at hf
        omega
      have hmem := parse_print_members (JsonFields.cons k v tl) f rest
        (by simp) hfm
      obtain ⟨cs0, hcs⟩ := printObj_head k v tl
      rw [hcs] at hmem
      simp only [List.cons_append] at hmem
      have hp : printJson (Json.obj (JsonFields.cons k v tl)) ++ rest
          = lbraceChar ::
            (printObj (JsonFields.cons k v tl) ++ rbraceChar :: rest) := by
        simp [printJson]
      rw [hp, hcs, List.cons_append]
      simp +decide [parseValue, skipWs, hmem]

theorem parse_print_items (xs : JsonList) (fuel : Nat) (rest : List Char)
    (hne : xs ≠ JsonList.nil) (hf : fuelItems xs ≤ fuel) :
    parseItems fuel (printArr xs ++ Char.ofNat 93 :: rest) = some (xs, rest) := by
  cases xs with
  | nil => exact absurd rfl hne
  | cons v tl =>
    have hf' : fuelJson v + fuelItems tl + 1 ≤ fuel := by
      simpa [fuelItems] using hf
    have hvpos := fuelJson_pos v
    obtain ⟨f2, rfl⟩ : ∃ f2, fuel = f2 + 1 + 1 :=
      ⟨fuel - 2, by omega⟩
    cases tl with
    | nil =>
      have hval := parse_print v f2 (Char.ofNat 93 :: rest)
        (by omega) ⟨by decide, by decide⟩
      have hpa : printArr (JsonList.cons v JsonList.nil) = printJson v := by
        simp [printArr]
      rw [hpa, parseItems_succ, hval]
      simp +decide [skipWs]
    | cons w tl2 =>
      have hval := parse_print v f2
        (Char.ofNat 44 ::
          (printArr (JsonList.cons w tl2) ++ Char.ofNat 93 :: rest))
        (by omega) ⟨by decide, by decide⟩
      have hitems := parse_print_items (JsonList.cons w tl2) (f2 + 1) rest
        (by simp) (by simp only [fuelItems] at hf' ⊢; omega)
      have hpa : printArr (JsonList.cons v (JsonList.cons w tl2)) ++
            Char.ofNat 93 :: rest
          = printJson v ++ (Char.ofNat 44 ::
            (printArr (JsonList.cons w tl2) ++ Char.ofNat 93 :: rest)) := by
        simp [printArr]
      rw [hpa, parseItems_succ, hval]
      simp +decide [skipWs, hitems]

theorem parse_print_members (fs : JsonFields) (fuel : Nat) (rest : List Char)
    (hne : fs ≠ JsonFields.nil) (hf : fuelMembers fs ≤ fuel) :
    parseMembers fuel (printObj fs ++ rbraceChar :: rest) = some (fs, rest) := by
  cases fs with
  | nil => exact absurd rfl hne
  | cons k v tl =>
    obtain ⟨kd⟩ := k
    have hf' : fuelJson v + fuelMembers tl + 1 ≤ fuel := by
      simpa [fuelMembers] using hf
    have hvpos := fuelJson_pos v
    obtain ⟨f2, rfl⟩ : ∃ f2, fuel = f2 + 1 + 1 := ⟨fuel - 2, by omega⟩
    cases tl with
    | nil =>
      have hkey := parseStringBody_escape kd
        (Char.ofNat 58 :: (printJson v ++ rbraceChar :: rest))
      have hval := parse_print v f2 (rbraceChar :: rest)
        (by omega) ⟨by decide, by decide⟩
      have hpo : printObj (JsonFields.cons (String.mk kd) v JsonFields.nil) ++
            rbraceChar :: rest
          = quoteChar :: (escapeChars kd ++ quoteChar ::
            (Char.ofNat 58 :: (printJson v ++ rbraceChar :: rest))) := by
        simp [printObj, strChars]
      rw [hpo, parseMembers_succ]
      simp +decide [skipWs, hkey, hval]
    | cons k2 w tl2 =>
      have hkey := parseStringBody_escape kd
        (Char.ofNat 58 :: (printJson v ++ Char.ofNat 44 ::
          (printObj (JsonFields.cons k2 w tl2) ++ rbraceChar :: rest)))
      have hval := parse_print v f2
        (Char.ofNat 44 ::
          (printObj (JsonFields.cons k2 w tl2) ++ rbraceChar :: rest))
        (by omega) ⟨by decide, by decide⟩
      have hmem := parse_print_members (JsonFields.cons k2 w tl2) (f2 + 1) rest
        (by simp) (by simp only [fuelMembers] at hf' ⊢; omega)
      have hpo : printObj (JsonFields.cons (String.mk kd) v
            (JsonFields.cons k2 w tl2)) ++ rbraceChar :: rest
          = quoteChar :: (escapeChars kd ++ quoteChar ::
            (Char.ofNat 58 :: (printJson v ++ Char.ofNat 44 ::
              (printObj (JsonFields.cons k2 w tl2) ++ rbraceChar :: rest)))) := by
        simp [printObj, strChars]
      rw [hpo, parseMembers_succ]
      simp +decide [skipWs, hkey, hval, hmem]

end

mutual

theorem fuelJson_le_length (j : Json) :
    fuelJson j ≤ (printJson j).length := by
  cases j with
  | null => simp [fuelJson, printJson]
  | bool b => cases b <;> simp [fuelJson, printJson]
  | num d =>
    obtain ⟨c, cs, hcs, -⟩ := decChars_head d
    simp [fuelJson, printJson, hcs]
  | str s => simp [fuelJson, printJson, strChars]
  | arr xs =>
    have := fuelItems_le_length xs
    simp only [fuelJson, printJson, List.length_cons, List.length_append,
      List.length_singleton]
    omega
  | obj fs =>
    have := fuelMembers_le_length fs
    simp only [fuelJson, printJson, List.length_cons, List.length_append,
      List.length_singleton]
    omega

theorem fuelItems_le_length (xs : JsonList) :
    fuelItems xs ≤ (printArr xs).length + 1 := by
  cases xs with
  | nil => simp [fuelItems]
  | cons v tl =>
    have hv := fuelJson_le_length v
    cases tl with
    | nil =>
      simp only [fuelItems, printArr]
      omega
    | cons w tl2 =>
      have ht := fuelItems_le_length (JsonList.cons w tl2)
      simp only [fuelItems, printArr, List.length_append, List.length_cons] at ht ⊢
      omega

theorem fuelMembers_le_length (fs : JsonFields) :
    fuelMembers fs ≤ (printObj fs).length + 1 := by
  cases fs with
  | nil => simp [fuelMembers]
  | cons k v tl =>
    have hv := fuelJson_le_length v
    cases tl with
    | nil =>
      simp only [fuelMembers, printObj, List.length_append, List.length_cons]
      omega
    | cons k2 w tl2 =>
      have ht := fuelMembers_le_length (JsonFields.cons k2 w tl2)
      simp only [fuelMembers, printObj, List.length_append, List.length_cons] at ht ⊢
      omega

end

theorem loads_jsonify (j : Json) : loads (jsonify j) = some j := by
  have hlen := fuelJson_le_length j
  have h := parse_print j (printJson j).length [] (by omega) trivial
  simp only [List.append_nil] at h
  simp [loads, jsonify, h, skipWs]

/-! Helper lemmas about the Australia Post rate adapter. -/

theorem shipping_price_request_ok {entries : List (String × String)}
    {payload : RateRequest} {s : Serializable Aups.ShippingPriceRequest}
    (h : Aups.shipping_price_request entries payload = .ok s) :
    s = { value := Aups.build_request entries payload
          serializer := Aups.request_serializer } := by
  unfold Aups.shipping_price_request at h
  split at h
  · exact absurd h (by simp)
  · simpa [eq_comm] using h

theorem extract_charges_filterMap (l : List (String × Option ℚ)) :
    ((l.filter fun p => p.2.isSome).map fun p =>
        (⟨p.1, Aups.decimal p.2, some Currency.AUD.name⟩ : Aups.ChargeDetails))
      = l.filterMap fun p => p.2.map fun a =>
          (⟨p.1, some a, some "AUD"⟩ : Aups.ChargeDetails) := by
  induction l with
  | nil => simp
  | cons hd tl ih =>
    obtain ⟨name, amount⟩ := hd
    cases amount with
    | none => simpa [List.filter, List.filterMap] using ih
    | some a =>
      simpa [List.filter, List.filterMap, Aups.decimal, Currency.name] using ih

/-! Claim theorems. -/

/-- C1: shipping_price_request raises OriginNotServicedError carrying the
offending shipper country code if and only if the payload's shipper country
code is non-empty and not equal to AU; for every payload whose shipper
country code is AU, empty or absent, it succeeds and returns the Serializable
request. -/
theorem C1_origin_validation (entries : List (String × String))
    (payload : RateRequest) :
    (∀ cc, payload.shipper.country_code = some cc → cc ≠ "" → cc ≠ "AU" →
      Aups.shipping_price_request entries payload
        = .error { country_code := cc, carrier := "Australia post" }) ∧
    ((payload.shipper.country_code = none ∨
      payload.shipper.country_code = some "" ∨
      payload.shipper.country_code = some "AU") →
      Aups.shipping_price_request entries payload
        = .ok { value := Aups.build_request entries payload
                serializer := Aups.request_serializer }) := by
  constructor
  · intro cc hcc hne hnau
    have hcond : Aups.strTruthy payload.shipper.country_code = true ∧
        payload.shipper.country_code ≠ some Country.AU.name := by
      constructor
      · rw [hcc]
        simp [Aups.strTruthy, hne]
      · rw [hcc]
        simp [Country.name]
        exact hnau
    unfold Aups.shipping_price_request
    rw [if_pos hcond, hcc]
    rfl
  · intro h
    have hcond : ¬(Aups.strTruthy payload.shipper.country_code = true ∧
        payload.shipper.country_code ≠ some Country.AU.name) := by
      rcases h with h | h | h <;> rw [h] <;> simp [Aups.strTruthy, Country.name]
    unfold Aups.shipping_price_request
    rw [if_neg hcond]

/-- Witness for C1 at a concrete non-AU origin. -/
theorem C1_origin_validation_witness :
    Aups.shipping_price_request []
        { shipper := { country_code := some "US" }, recipient := {}, parcel := {} }
      = .error { country_code := "US", carrier := "Australia post" } :=
  (C1_origin_validation []
    { shipper := { country_code := some "US" }, recipient := {}, parcel := {} }).1
    "US" rfl (by decide) (by decide)

/-- C2: extract_quote reads the shipment summary (an empty one when absent);
its extra charges are exactly the present entries among Fuel, Security,
Transit Cover and Freight Charge, in that order, each in AUD; the charge
totals are the decimal conversions of the summary totals; and on the concrete
summary of the claim it yields exactly the stated RateDetails. -/
theorem C2_extract_quote (rate : Aups.ResponseShipment) (settings : Settings) :
    ((Aups.extract_quote rate settings).extra_charges
      = ([("Fuel", (rate.shipment_summary.getD {}).fuel_surcharge),
          ("Security", (rate.shipment_summary.getD {}).security_surcharge),
          ("Transit Cover", (rate.shipment_summary.getD {}).transit_cover),
          ("Freight Charge",
            (rate.shipment_summary.getD {}).freight_charge)].filterMap
          fun p => p.2.map fun a =>
            (⟨p.1, some a, some "AUD"⟩ : Aups.ChargeDetails))) ∧
    (Aups.extract_quote rate settings).base_charge
      = Aups.decimal (rate.shipment_summary.getD {}).total_cost_ex_gst ∧
    (Aups.extract_quote rate settings).duties_and_taxes
      = Aups.decimal (rate.shipment_summary.getD {}).total_gst ∧
    (Aups.extract_quote rate settings).total_charge
      = Aups.decimal (rate.shipment_summary.getD {}).total_cost ∧
    (Aups.extract_quote rate settings).discount
      = Aups.decimal (rate.shipment_summary.getD {}).discount ∧
    (Aups.extract_quote rate settings).currency = some "AUD" ∧
    Aups.extract_quote
        { shipment_summary := some
            { total_cost := some 110, total_cost_ex_gst := some 100,
              total_gst := some 10, discount := some 0,
              fuel_surcharge := some 10.5, security_surcharge := none,
              transit_cover := some 2.0, freight_charge := none } } settings
      = { carrier := settings.carrier, carrier_name := settings.carrier_name,
          base_charge := some 100, duties_and_taxes := some 10,
          total_charge := some 110, currency := some "AUD", discount := some 0,
          extra_charges :=
            [⟨"Fuel", some 10.5, some "AUD"⟩,
             ⟨"Transit Cover", some 2.0, some "AUD"⟩] } := by
  refine ⟨?_, rfl, rfl, rfl, rfl, rfl, ?_⟩
  · exact extract_charges_filterMap _
  · simp [Aups.extract_quote, Aups.decimal, Currency.name]

/-- C5: parse_shipping_price_response yields one extracted quote per entry of
the response's shipments list in order, and the message list parsed from the
errors field (defaulting to empty) independently of the quotes; an empty
response yields an empty pair, and quotes together with errors is a valid
outcome. -/
theorem C5_parse_response (response : Aups.RawResponse) (settings : Settings) :
    ((Aups.parse_shipping_price_response response settings).1
      = response.shipments.map fun rate => Aups.extract_quote rate settings) ∧
    (Aups.parse_shipping_price_response response settings).1.length
      = response.shipments.length ∧
    ((Aups.parse_shipping_price_response response settings).2
      = Aups.parse_error_response (response.errors.getD []) settings) ∧
    Aups.parse_shipping_price_response { shipments := [], errors := some [] }
        settings = ([], []) ∧
    Aups.parse_shipping_price_response
        { shipments := [{ shipment_summary := none }],
          errors := some [{ code := some "E", message := some "m" }] } settings
      = ([Aups.extract_quote { shipment_summary := none } settings],
         [{ carrier := settings.carrier, carrier_name := settings.carrier_name,
            code := some "E", message := some "m" }]) := by
  refine ⟨rfl, ?_, rfl, rfl, rfl⟩
  simp [Aups.parse_shipping_price_response]

/-- C6: for every native rate request built by shipping_price_request,
serializing it with the request serializer and parsing the JSON string back
yields the plain mapping of the request. -/
theorem C6_serializer_roundtrip (entries : List (String × String))
    (payload : RateRequest) (s : Serializable Aups.ShippingPriceRequest)
    (h : Aups.shipping_price_request entries payload = .ok s) :
    loads (s.serializer s.value) = some (Aups.to_dict s.value) := by
  obtain rfl := shipping_price_request_ok h
  exact loads_jsonify (Aups.to_dict (Aups.build_request entries payload))

/-- Witness for C6 at a concrete accepted payload. -/
theorem C6_serializer_roundtrip_witness :
    loads (Aups.request_serializer (Aups.build_request []
        { shipper := {}, recipient := {}, parcel := {} }))
      = some (Aups.to_dict (Aups.build_request []
        { shipper := {}, recipient := {}, parcel := {} })) :=
  C6_serializer_roundtrip [] { shipper := {}, recipient := {}, parcel := {} }
    { value := Aups.build_request [] { shipper := {}, recipient := {}, parcel := {} }
      serializer := Aups.request_serializer } rfl

/-- C7: every accepted payload yields exactly one shipment containing exactly
one item, and every carrier field without a normalized-payload equivalent is
explicitly set to its absent or fixed default value. -/
theorem C7_total_mapping (entries : List (String × String))
    (payload : RateRequest) (s : Serializable Aups.ShippingPriceRequest)
    (h : Aups.shipping_price_request entries payload = .ok s) :
    s.value.shipments.length = 1 ∧
    ∀ sh ∈ s.value.shipments,
      sh.items.length = 1 ∧
      sh.sender_references = none ∧ sh.goods_descriptions = none ∧
      sh.despatch_date = none ∧ sh.consolidate = none ∧
      sh.dangerous_goods = none ∧ sh.movement_type = none ∧
      sh.features = none ∧ sh.authorisation_number = none ∧
      sh.from_.type = none ∧ sh.to_.type = none ∧
      sh.to_.delivery_instructions = none ∧
      ∀ it ∈ sh.items,
        it.cubic_volume = none ∧ it.contains_dangerous_goods = none ∧
        it.transportable_by_air = none ∧
        it.dangerous_goods_declaration = none ∧
        it.authority_to_leave = false ∧ it.reason_for_return = none ∧
        it.allow_partial_delivery = true ∧ it.atl_number = none ∧
        it.features = none ∧ it.tracking_details = none ∧
        it.commercial_value = none ∧ it.export_declaration_number = none ∧
        it.import_reference_number = none ∧ it.classification_type = none ∧
        it.description_of_other = none ∧
        it.international_parcel_sender_name = none ∧
        it.non_delivery_action = none ∧ it.certificate_number = none ∧
        it.licence_number = none ∧ it.invoice_number = none ∧
        it.comments = none ∧ it.tariff_concession = none ∧
        it.free_trade_applicable = none := by
  obtain rfl := shipping_price_request_ok h
  refine ⟨rfl, ?_⟩
  intro sh hsh
  simp only [Aups.build_request, List.mem_singleton] at hsh
  subst hsh
  refine ⟨rfl, rfl, rfl, rfl, rfl, rfl, rfl, rfl, rfl, rfl, rfl, rfl, ?_⟩
  intro it hit
  simp only [List.mem_singleton] at hit
  subst hit
  exact ⟨rfl, rfl, rfl, rfl, rfl, rfl, rfl, rfl, rfl, rfl, rfl, rfl, rfl, rfl,
    rfl, rfl, rfl, rfl, rfl, rfl, rfl, rfl, rfl⟩

/-- Witness for C7 at a concrete accepted payload. -/
theorem C7_total_mapping_witness :
    (Aups.build_request [] { shipper := {}, recipient := {}, parcel := {} }
      : Aups.ShippingPriceRequest).shipments.length = 1 :=
  (C7_total_mapping [] { shipper := {}, recipient := {}, parcel := {} }
    { value := Aups.build_request [] { shipper := {}, recipient := {}, parcel := {} }
      serializer := Aups.request_serializer } rfl).1

/-- C8: for every accepted payload the shipper maps one-to-one onto the From
block and the recipient onto the To block, and email tracking is enabled
exactly when the shipper email is present. -/
theorem C8_party_mapping (entries : List (String × String))
    (payload : RateRequest) (s : Serializable Aups.ShippingPriceRequest)
    (h : Aups.shipping_price_request entries payload = .ok s) :
    ∀ sh ∈ s.value.shipments,
      sh.from_.name = payload.shipper.person_name ∧
      sh.from_.lines
        = [payload.shipper.address_line1, payload.shipper.address_line2] ∧
      sh.from_.suburb = payload.shipper.suburb ∧
      sh.from_.state = payload.shipper.state_code ∧
      sh.from_.postcode = payload.shipper.postal_code ∧
      sh.from_.country = payload.shipper.country_code ∧
      sh.from_.phone = payload.shipper.phone_number ∧
      sh.from_.email = payload.shipper.email ∧
      sh.to_.name = payload.recipient.person_name ∧
      sh.to_.business_name = payload.recipient.company_name ∧
      sh.to_.lines
        = [payload.recipient.address_line1, payload.recipient.address_line2] ∧
      sh.to_.suburb = payload.recipient.suburb ∧
      sh.to_.state = payload.recipient.state_code ∧
      sh.to_.postcode = payload.recipient.postal_code ∧
      sh.to_.country = payload.recipient.country_code ∧
      sh.to_.phone = payload.recipient.phone_number ∧
      sh.to_.email = payload.recipient.email ∧
      (sh.email_tracking_enabled = true ↔ payload.shipper.email.isSome = true) := by
  obtain rfl := shipping_price_request_ok h
  intro sh hsh
  simp only [Aups.build_request, List.mem_singleton] at hsh
  subst hsh
  exact ⟨rfl, rfl, rfl, rfl, rfl, rfl, rfl, rfl, rfl, rfl, rfl, rfl, rfl, rfl,
    rfl, rfl, rfl, Iff.rfl⟩

/-- Witness for C8 at a concrete accepted payload with a shipper email. -/
theorem C8_party_mapping_witness :
    ((Aups.build_request []
        { shipper := { email := some "a@b.c" }, recipient := {}, parcel := {} }
        : Aups.ShippingPriceRequest).shipments.get
      ⟨0, by simp [Aups.build_request]⟩).email_tracking_enabled = true :=
  ((C8_party_mapping []
      { shipper := { email := some "a@b.c" }, recipient := {}, parcel := {} }
      { value := Aups.build_request []
          { shipper := { email := some "a@b.c" }, recipient := {}, parcel := {} }
        serializer := Aups.request_serializer } rfl _
      (List.get_mem _ _ _)).2.2.2.2.2.2.2.2.2.2.2.2.2.2.2.2.2).mpr rfl

/-! Helper lemmas about the Purolator document-request builder. -/

theorem document_type_eq (payload : Purolator.ShipmentRequest) :
    Purolator.document_type payload
      = (if payload.shipper.country_code = payload.recipient.country_code
          then "Domestic" else "International") ++ "BillOfLading" ++
        (if Purolator.print_type_name payload.label_type = some "ZPL"
          then "Thermal" else "") := by
  by_cases hio : payload.shipper.country_code = payload.recipient.country_code <;>
    by_cases hz :
        Purolator.print_type_name payload.label_type = some "ZPL" <;>
      simp +decide [Purolator.document_type, Purolator.concat_str, hio, hz]

theorem print_type_map_eq (key : String) :
    Purolator.PrintType.map key
      = if Purolator.upperStr "PDF" = Purolator.upperStr key then some "PDF"
        else if Purolator.upperStr "ZPL" = Purolator.upperStr key then some "ZPL"
        else none := by
  by_cases h1 : Purolator.upperStr "PDF" = Purolator.upperStr key
  · simp [Purolator.PrintType.map, Purolator.PrintType.names, List.find?, h1]
  · by_cases h2 : Purolator.upperStr "ZPL" = Purolator.upperStr key
    · simp [Purolator.PrintType.map, Purolator.PrintType.names, List.find?, h1, h2]
    · simp [Purolator.PrintType.map, Purolator.PrintType.names, List.find?, h1, h2]

theorem print_type_name_zpl (lb : String) :
    Purolator.print_type_name (some lb) = some "ZPL"
      ↔ Purolator.upperStr lb = "ZPL" := by
  by_cases he : lb = ""
  · subst he
    decide
  · have hl : Purolator.print_type_name (some lb) = Purolator.PrintType.map lb := by
      simp [Purolator.print_type_name, Purolator.label_or_pdf, he]
    rw [hl, print_type_map_eq]
    rw [show Purolator.upperStr "PDF" = "PDF" from by decide,
      show Purolator.upperStr "ZPL" = "ZPL" from by decide]
    by_cases hp : ("PDF" : String) = Purolator.upperStr lb
    · rw [if_pos hp]
      constructor
      · intro h
        simp at h
      · intro h
        exact absurd (hp.trans h) (by decide)
    · rw [if_neg hp]
      by_cases hz : ("ZPL" : String) = Purolator.upperStr lb
      · rw [if_pos hz]
        simp [hz.symm]
      · rw [if_neg hz]
        constructor
        · intro h
          exact Option.noConfusion h
        · intro h
          exact absurd h.symm hz

/-- C3: the document type string starts with Domestic exactly when the
shipper and recipient country codes are equal and with International
otherwise, and it is the no-separator concatenation of that prefix, the
BillOfLading core, and an optional Thermal suffix. -/
theorem C3_document_type_choice (payload : Purolator.ShipmentRequest) :
    (payload.shipper.country_code = payload.recipient.country_code →
      "Domestic".data.isPrefixOf (Purolator.document_type payload).data = true) ∧
    (payload.shipper.country_code ≠ payload.recipient.country_code →
      "International".data.isPrefixOf (Purolator.document_type payload).data = true) ∧
    Purolator.document_type payload
      = (if payload.shipper.country_code = payload.recipient.country_code
          then "Domestic" else "International") ++ "BillOfLading" ++
        (if Purolator.print_type_name payload.label_type = some "ZPL"
          then "Thermal" else "") := by
  refine ⟨?_, ?_, document_type_eq payload⟩
  · intro h
    rw [document_type_eq payload, if_pos h]
    by_cases hz : Purolator.print_type_name payload.label_type = some "ZPL"
    · rw [if_pos hz]
      decide
    · rw [if_neg hz]
      decide
  · intro h
    rw [document_type_eq payload, if_neg h]
    by_cases hz : Purolator.print_type_name payload.label_type = some "ZPL"
    · rw [if_pos hz]
      decide
    · rw [if_neg hz]
      decide

/-- Witness for C3 at a concrete domestic payload. -/
theorem C3_document_type_choice_witness :
    "Domestic".data.isPrefixOf (Purolator.document_type
        { shipper := { country_code := some "CA" },
          recipient := { country_code := some "CA" } }).data
      = true :=
  (C3_document_type_choice
    { shipper := { country_code := some "CA" },
      recipient := { country_code := some "CA" } }).1 rfl

/-- C4: the document type string ends with Thermal exactly when the payload's
label type matches ZPL case-insensitively per the print-type mapping; for any
other present label type, and for an absent one, it does not. -/
theorem C4_thermal_suffix (payload : Purolator.ShipmentRequest) :
    (∀ lb, payload.label_type = some lb → Purolator.upperStr lb = "ZPL" →
      "Thermal".data.isSuffixOf (Purolator.document_type payload).data = true) ∧
    (∀ lb, payload.label_type = some lb → Purolator.upperStr lb ≠ "ZPL" →
      "Thermal".data.isSuffixOf (Purolator.document_type payload).data = false) ∧
    (payload.label_type = none →
      "Thermal".data.isSuffixOf (Purolator.document_type payload).data = false) := by
  refine ⟨?_, ?_, ?_⟩
  · intro lb hlb hup
    have hz : Purolator.print_type_name payload.label_type = some "ZPL" := by
      rw [hlb]
      exact (print_type_name_zpl lb).mpr hup
    rw [document_type_eq payload, if_pos hz]
    by_cases hio : payload.shipper.country_code = payload.recipient.country_code
    · rw [if_pos hio]
      decide
    · rw [if_neg hio]
      decide
  · intro lb hlb hup
    have hz : ¬(Purolator.print_type_name payload.label_type = some "ZPL") := by
      rw [hlb]
      intro hc
      exact hup ((print_type_name_zpl lb).mp hc)
    rw [document_type_eq payload, if_neg hz]
    by_cases hio : payload.shipper.country_code = payload.recipient.country_code
    · rw [if_pos hio]
      decide
    · rw [if_neg hio]
      decide
  · intro hnone
    have hz : ¬(Purolator.print_type_name payload.label_type = some "ZPL") := by
      rw [hnone]
      decide
    rw [document_type_eq payload, if_neg hz]
    by_cases hio : payload.shipper.country_code = payload.recipient.country_code
    · rw [if_pos hio]
      decide
    · rw [if_neg hio]
      decide

/-- Witness for C4 at a concrete lower-case zpl label. -/
theorem C4_thermal_suffix_witness :
    "Thermal".data.isSuffixOf (Purolator.document_type
        { shipper := {}, recipient := {},
          label_type := some "zpl" }).data = true :=
  (C4_thermal_suffix
    { shipper := {}, recipient := {}, label_type := some "zpl" }).1 "zpl" rfl
    (by decide)

/-- C9: the built envelope carries Version 1.3, the settings language, an
empty group id, the payload reference and the user token in its header, and a
body with the mapped print-type name as output type, a fixed synchronous
flag, and exactly one document criterion keyed by the tracking identifier
with the singleton computed document type. -/
theorem C9_envelope_population (pin : String)
    (payload : Purolator.ShipmentRequest) (settings : Settings) :
    (Purolator.get_shipping_documents_request pin payload settings).header.Version
        = "1.3" ∧
    (Purolator.get_shipping_documents_request pin payload settings).header.Language
        = settings.language ∧
    (Purolator.get_shipping_documents_request pin payload settings).header.GroupID
        = "" ∧
    (Purolator.get_shipping_documents_request pin payload
        settings).header.RequestReference = payload.reference ∧
    (Purolator.get_shipping_documents_request pin payload
        settings).header.UserToken = settings.user_token ∧
    (Purolator.get_shipping_documents_request pin payload
        settings).body.OutputType
        = Purolator.print_type_name payload.label_type ∧
    (Purolator.get_shipping_documents_request pin payload
        settings).body.Synchronous = true ∧
    (Purolator.get_shipping_documents_request pin payload
        settings).body.DocumentCriterium.DocumentCriteria
        = [{ pin := { Value := pin }
             documentTypes :=
               { DocumentType := [Purolator.document_type payload] } }] :=
  ⟨rfl, rfl, rfl, rfl, rfl, rfl, rfl, rfl⟩

/-- C10: an absent or empty (falsy) label type behaves as PDF: the output
type is the PDF print-type name, the document type carries no Thermal
suffix, and the document type agrees with the one computed for an explicit
PDF label. -/
theorem C10_label_default_pdf (pin : String)
    (payload : Purolator.ShipmentRequest) (settings : Settings)
    (h : payload.label_type = none ∨ payload.label_type = some "") :
    (Purolator.get_shipping_documents_request pin payload
        settings).body.OutputType = some "PDF" ∧
    "Thermal".data.isSuffixOf (Purolator.document_type payload).data = false ∧
    Purolator.document_type payload
      = Purolator.document_type { payload with label_type := some "PDF" } := by
  have hpt : Purolator.print_type_name payload.label_type = some "PDF" := by
    rcases h with h | h <;> rw [h] <;> decide
  have hz : ¬(Purolator.print_type_name payload.label_type = some "ZPL") := by
    rw [hpt]
    decide
  refine ⟨hpt, ?_, ?_⟩
  · rw [document_type_eq payload, if_neg hz]
    by_cases hio : payload.shipper.country_code = payload.recipient.country_code
    · rw [if_pos hio]
      decide
    · rw [if_neg hio]
      decide
  · rw [document_type_eq payload,
      document_type_eq { payload with label_type := some "PDF" }]
    simp +decide [hpt]

/-- Witness for C10 at a concrete payload with an empty (falsy) label
type. -/
theorem C10_label_default_pdf_witness :
    (Purolator.get_shipping_documents_request "PIN0"
        { shipper := {}, recipient := {}, label_type := some "" }
        { carrier := "purolator", carrier_name := "Purolator" }).body.OutputType
      = some "PDF" :=
  (C10_label_default_pdf "PIN0"
    { shipper := {}, recipient := {}, label_type := some "" }
    { carrier := "purolator", carrier_name := "Purolator" } (Or.inr rfl)).1

end Karrio
